import Mathlib

/-!
Shallow embedding of the kompresin compression library (`src/lib.rs`)
and a verification of its specification.

Modelling conventions:
* Machine integers (`u8`, `u16`, `u32`, `usize`) are modelled as `Nat`;
  every clamp and saturating operation of the source is kept explicitly,
  and all reachable values stay far below the overflow bounds of the
  corresponding Rust types.
* Byte buffers are `List Nat`.
* External collaborators (the pixo JPEG/PNG single-shot encoders, the
  image decoder/resizer, the lopdf parse/serialize pair and the flate
  decompressor) are oracle functions collected in the `Extern` structure;
  the repository code is embedded as functions parameterised by `Extern`.
* The floating-point body of `estimate_quality` is modelled by the
  oracle field `Extern.estimate` (its integer guard is kept in
  `estimate_quality`); the `f32` arithmetic inside `scale_to_max_side`
  is modelled exactly as fixed-point naturals (value times `2 ^ 64`)
  with round-to-nearest-even conversions.
-/

/-- `clamp_u16` from src/lib.rs lines 8-17. -/
def clamp_u16 (v lo hi : Nat) : Nat :=
  if v < lo then lo else if hi < v then hi else v

/-- `clamp_u8` from src/lib.rs lines 19-28. -/
def clamp_u8 (v lo hi : Nat) : Nat :=
  if v < lo then lo else if hi < v then hi else v

/-- `blend_channel` from src/lib.rs lines 30-39: integer alpha blend with a
`+127` rounding bias.  The trailing `% 256` is the `u16 → u8` cast of the
source, which is the identity for byte-range inputs. -/
def blend_channel (src a bg : Nat) : Nat :=
  ((src * a + bg * (255 - a) + 127) / 255) % 256

/-- Rust's `str::contains` for the patterns used by the classifier. -/
def strContains (s pat : String) : Bool :=
  decide (pat.toList <:+: s.toList)

/-- ASCII lowercasing of one character. -/
def charLower (c : Char) : Char :=
  if 'A' ≤ c ∧ c ≤ 'Z' then Char.ofNat (c.toNat + 32) else c

/-- Rust's `str::to_lowercase` as used by `compress_file`, modelled on
the ASCII range (the classifier only compares against ASCII
patterns). -/
def strToLower (s : String) : String :=
  ⟨s.toList.map charLower⟩

/-- `choose_out_mode` from src/lib.rs lines 41-52. -/
def choose_out_mode (mime ext out_mode_sel : String) : String :=
  if out_mode_sel = "auto" then
    if strContains mime "pdf" ∨ ext = "pdf" then "pdf"
    else if strContains mime "png" ∨ ext = "png" then "png"
    else "jpeg"
  else out_mode_sel

/-- `is_pdf` from src/lib.rs lines 54-59; `[37, 80, 68, 70]` is the byte
string `%PDF`. -/
def is_pdf (mime ext : String) (bytes : List Nat) : Bool :=
  if strContains mime "pdf" ∨ ext = "pdf" then true
  else if 4 ≤ bytes.length ∧ bytes.take 4 = [37, 80, 68, 70] then true
  else false

/-- `input_kind` from src/lib.rs lines 61-72. -/
def input_kind (mime ext : String) : String :=
  if strContains mime "pdf" ∨ ext = "pdf" then "pdf"
  else if strContains mime "png" ∨ ext = "png" then "png"
  else if strContains mime "jpg" ∨ strContains mime "jpeg" ∨ ext = "jpg" ∨ ext = "jpeg"
    then "jpeg"
  else "unknown"

/-! ### Exact model of the `f32` arithmetic used by `scale_to_max_side`

A nonnegative `f32` value is represented exactly as the natural number
`value * 2 ^ 64` (every `f32` with magnitude in `[2 ^ -41, 2 ^ 41]` is an
integer multiple of `2 ^ -64`; that range covers everything reachable
from `u32` dimensions, and `scale_to_max_side` only ever produces
nonnegative values).  `roundF32frac n d` rounds the exact positive
rational `n / d` to the nearest `f32` with ties to even, which is the
IEEE-754 behaviour of the `u32 → f32` conversions, the division and the
multiplication used by the source. -/

/-- Whether `2 ^ e ≤ n / d`, for a signed exponent. -/
def f32le2pow (e : Int) (n d : Nat) : Bool :=
  if 0 ≤ e then d * 2 ^ e.toNat ≤ n else d ≤ n * 2 ^ (-e).toNat

/-- Binade scan: largest `e ≥ 40 - fuel` with `2 ^ e ≤ n / d`, going down
from `e = 40`. -/
def f32expAux : Nat → Int → Nat → Nat → Int
  | 0, e, _, _ => e
  | fuel + 1, e, n, d => if f32le2pow e n d then e else f32expAux fuel (e - 1) n d

def f32expN (n d : Nat) : Int :=
  f32expAux 105 40 n d

/-- Nearest `f32` (ties to even) to the rational `n / d`, scaled by
`2 ^ 64`. -/
def roundF32frac (n d : Nat) : Nat :=
  if n = 0 ∨ d = 0 then 0
  else
    let e := f32expN n d
    let N := if e ≤ 23 then n * 2 ^ (23 - e).toNat else n
    let D := if e ≤ 23 then d else d * 2 ^ (e - 23).toNat
    let q := N / D
    let r := N % D
    let m :=
      if 2 * r < D then q
      else if D < 2 * r then q + 1
      else if q % 2 = 0 then q else q + 1
    m * 2 ^ (e + 41).toNat

def f32div (a b : Nat) : Nat := roundF32frac a b

def f32mul (a b : Nat) : Nat := roundF32frac (a * b) (2 ^ 128)

def u32toF32 (v : Nat) : Nat := roundF32frac v 1

/-- Rust `f32::round` (round half away from zero) on a nonnegative
value; the result of rounding an `f32` is always exactly
representable. -/
def f32round (x : Nat) : Nat := ((x + 2 ^ 63) / 2 ^ 64) * 2 ^ 64

def f32max (a b : Nat) : Nat := max a b

/-- The `f32` literal `1.0`. -/
def f32one : Nat := 2 ^ 64

/-- Rust `as u32` on a nonnegative `f32`: truncate toward zero,
saturating at `2 ^ 32 - 1`. -/
def f32toU32 (x : Nat) : Nat := min (x / 2 ^ 64) (2 ^ 32 - 1)

/-- `scale_to_max_side` from src/lib.rs lines 74-86. -/
def scale_to_max_side (w h max_side : Nat) : Nat × Nat :=
  if max_side = 0 then (w, h)
  else if max w h ≤ max_side then (w, h)
  else
    let scale := f32div (u32toF32 max_side) (u32toF32 (max w h))
    (f32toU32 (f32max (f32round (f32mul (u32toF32 w) scale)) f32one),
     f32toU32 (f32max (f32round (f32mul (u32toF32 h) scale)) f32one))

/-! ### PDF object graphs (the fragment of lopdf the rewriter touches) -/

/-- A lopdf `Object`: the rewriter inspects names, integers, arrays and
streams; every other variant behaves like `other` (its `as_name` /
`as_i64` accessors fail and it is never a stream). -/
inductive PdfObj where
  | name : String → PdfObj
  | int : Int → PdfObj
  | arr : List PdfObj → PdfObj
  | stream : List (String × PdfObj) → List Nat → PdfObj
  | other : PdfObj

/-- lopdf `Object::as_name` (success cases). -/
def asName : PdfObj → Option String
  | PdfObj.name s => some s
  | _ => none

/-- lopdf `Object::as_i64` (success cases). -/
def asI64 : PdfObj → Option Int
  | PdfObj.int i => some i
  | _ => none

/-- lopdf `Dictionary::get`: first entry with the given key. -/
def dictGet : List (String × PdfObj) → String → Option PdfObj
  | [], _ => none
  | (k', v) :: rest, k => if k' = k then some v else dictGet rest k

/-- lopdf `Dictionary::set`: replace the entry in place, else append. -/
def dictSet : List (String × PdfObj) → String → PdfObj → List (String × PdfObj)
  | [], k, v => [(k, v)]
  | (k', v') :: rest, k, v =>
    if k' = k then (k, v) :: rest else (k', v') :: dictSet rest k v

/-- lopdf `Dictionary::remove`. -/
def dictRemove : List (String × PdfObj) → String → List (String × PdfObj)
  | [], _ => []
  | (k', v) :: rest, k =>
    if k' = k then dictRemove rest k else (k', v) :: dictRemove rest k

/-- The dictionary rewrite performed on an eligible image stream by
`compress_pdf_images` (src/lib.rs lines 646-654, with the `Length`
refresh of lopdf's `set_content`). -/
def rewrittenDict (dict : List (String × PdfObj)) (len : Nat) :
    List (String × PdfObj) :=
  dictRemove
    (dictSet
      (dictSet
        (dictSet (dictSet dict "Length" (PdfObj.int len)) "Filter"
          (PdfObj.name "DCTDecode"))
        "ColorSpace" (PdfObj.name "DeviceRGB"))
      "BitsPerComponent" (PdfObj.int 8))
    "DecodeParms"

/-- lopdf `Stream::filters`: a `Name` filter gives a singleton, an array
of names gives the list, anything else (or a missing key) is an error. -/
def streamFilters (dict : List (String × PdfObj)) : Option (List String) :=
  match dictGet dict "Filter" with
  | some (PdfObj.name s) => some [s]
  | some (PdfObj.arr xs) => xs.mapM asName
  | _ => none

/-! ### External collaborators -/

inductive ColorType where
  | rgb
  | rgba

inductive QuantizationMode where
  | auto
  | force

structure PngQuantization where
  mode : QuantizationMode
  max_colors : Nat
  dithering : Bool

/-- The pixo `JpegOptions` fields the repository sets; the remaining
preset-derived fields are functions of these and live in the oracle. -/
structure JpegOptions where
  width : Nat
  height : Nat
  quality : Nat
  preset : Nat
  color_type : ColorType

/-- The pixo `PngOptions` fields the repository sets.  `quantization =
none` means the defaults of `from_preset_with_lossless` are left
untouched (the `lossless` branch of the source). -/
structure PngOptions where
  width : Nat
  height : Nat
  preset : Nat
  lossless : Bool
  color_type : ColorType
  quantization : Option PngQuantization

/-- Oracles for the external collaborators of the library (spec §1):
pixo encoders, image decode/resize, lopdf load/save, flate inflate, and
the floating-point body of `estimate_quality` (src/lib.rs lines 203-205,
clamped by the source into `[1, max_quality]`). -/
structure Extern where
  jpegEncode : List Nat → JpegOptions → Option (List Nat)
  pngEncode : List Nat → PngOptions → Option (List Nat)
  decodeImage : List Nat → Option (Nat × Nat × List Nat)
  resizeImage : List Nat → Nat → Nat → Nat → Nat → List Nat
  pdfParse : List Nat → Option (List (Nat × PdfObj))
  pdfSave : List (Nat × PdfObj) → Option (List Nat)
  inflate : List (String × PdfObj) → List Nat → Option (List Nat)
  estimate : Nat → Nat → Nat → Nat

/-! ### Single-shot encoders -/

/-- The compositing loop of `encode_jpeg_rgba` (src/lib.rs lines
131-151).  `getD _ 0` is safe indexing; the guard of the caller ensures
every index read is below `px * 4`. -/
def compositeRgb (rgba : List Nat) (px bg_r bg_g bg_b : Nat) : List Nat :=
  (List.range px).flatMap fun i =>
    let r := rgba.getD (i * 4) 0
    let g := rgba.getD (i * 4 + 1) 0
    let b := rgba.getD (i * 4 + 2) 0
    let a := rgba.getD (i * 4 + 3) 0
    if a = 255 then [r, g, b]
    else if a = 0 then [bg_r, bg_g, bg_b]
    else [blend_channel r a bg_r, blend_channel g a bg_g, blend_channel b a bg_b]

/-- `encode_jpeg_rgba` from src/lib.rs lines 115-159. -/
def encode_jpeg_rgba (E : Extern) (width height : Nat) (rgba : List Nat)
    (quality preset bg_r bg_g bg_b : Nat) : List Nat :=
  if rgba.length < width * height * 4 ∨ width * height = 0 then []
  else
    (E.jpegEncode (compositeRgb rgba (width * height) bg_r bg_g bg_b)
      { width := width, height := height, quality := clamp_u8 quality 1 100,
        preset := clamp_u8 preset 0 2, color_type := ColorType.rgb }).getD []

/-- `encode_png_rgba` from src/lib.rs lines 164-195. -/
def encode_png_rgba (E : Extern) (width height : Nat) (rgba : List Nat)
    (preset : Nat) (lossless : Bool) (max_colors : Nat)
    (dithering force_quant : Bool) : List Nat :=
  if rgba.length < width * height * 4 ∨ width * height = 0 then []
  else
    (E.pngEncode rgba
      { width := width, height := height, preset := clamp_u8 preset 0 2,
        lossless := lossless, color_type := ColorType.rgba,
        quantization :=
          if lossless then none
          else some
            { mode := if force_quant then QuantizationMode.force else QuantizationMode.auto,
              max_colors := clamp_u16 max_colors 1 256,
              dithering := dithering } }).getD []

/-- `encode_png_with_quality` from src/lib.rs lines 208-237.
`(850 + 248 * auto_level) / 100` is the exact value of the source's
`(8.0 + (auto_level as f32 / 100.0) * 248.0).round() as u16`: the exact
result `8 + auto_level * 248 / 100` is a multiple of `1/25`, hence at
distance ≥ `1/50` from every half-integer, far above the `f32` rounding
error, so the `f32` computation rounds exactly like the rational one. -/
def encode_png_with_quality (E : Extern) (rgba : List Nat) (width height quality preset : Nat)
    (png_mode : String) (png_max_colors : Nat) (png_dither png_force_quant : Bool) :
    List Nat :=
  let auto_level := clamp_u8 quality 1 100
  let colors_from_level := (850 + 248 * auto_level) / 100
  if png_mode = "lossless" then
    encode_png_rgba E width height rgba preset true (clamp_u16 png_max_colors 1 256)
      png_dither png_force_quant
  else if png_mode = "auto" then
    encode_png_rgba E width height rgba preset false (clamp_u16 colors_from_level 1 256)
      (decide (auto_level ≤ 50)) (decide (auto_level < 90))
  else
    encode_png_rgba E width height rgba preset false (clamp_u16 png_max_colors 1 256)
      png_dither png_force_quant

/-! ### Target-size search -/

/-- `MIN_TARGET_QUALITY` from src/lib.rs line 197. -/
def MIN_TARGET_QUALITY : Nat := 1

/-- `estimate_quality` from src/lib.rs lines 199-206: the integer guard
is kept; the floating-point power-law body is the oracle `E.estimate`. -/
def estimate_quality (E : Extern) (max_quality current_bytes target_bytes : Nat) : Nat :=
  if current_bytes = 0 ∨ target_bytes = 0 then max_quality
  else E.estimate max_quality current_bytes target_bytes

/-- The bounded bisection loop shared verbatim by
`compress_png_to_target`, `compress_jpeg_to_target` and
`compress_pdf_to_target` (src/lib.rs lines 279-307, 350-377, 405-423),
parameterised by the per-quality encoder.  `fuel` counts the remaining
of the 6 permitted iterations; `min (mid + 1) 255` is
`mid_q.saturating_add(1)`. -/
def searchLoop (enc : Nat → List Nat) (target : Nat) :
    Nat → Nat → Option (List Nat) → List Nat → Nat → List Nat
  | _, _, best_under, smallest, 0 => best_under.getD smallest
  | lo, hi, best_under, smallest, fuel + 1 =>
    if lo ≤ hi then
      let mid := (lo + hi) / 2
      let out := enc mid
      let smallest' := if out.length < smallest.length then out else smallest
      if out.length ≤ target then
        searchLoop enc target (min (mid + 1) 255) hi (some out) smallest' fuel
      else if mid = 0 then best_under.getD smallest'
      else searchLoop enc target lo (mid - 1) best_under smallest' fuel
    else best_under.getD smallest

/-- The common shape of the three `compress_*_to_target` functions
(src/lib.rs lines 239-310, 312-380, 382-426) over an abstract per-quality
encoder, exactly as the spec describes them (§4.4). -/
def compress_to_target (enc : Nat → List Nat) (estf : Nat → Nat → Nat → Nat)
    (max_quality target_bytes : Nat) : List Nat :=
  let maxq := clamp_u8 max_quality 1 100
  let minq := min MIN_TARGET_QUALITY maxq
  let best := enc maxq
  if best.length ≤ target_bytes then best
  else
    let e := estf maxq best.length target_bytes
    let hi := if minq < e ∧ e < maxq then e else maxq
    searchLoop enc target_bytes minq hi none best 6

/-- Ghost-instrumented copy of `searchLoop`: identical control flow, but
also accumulates the list of outputs the loop actually evaluated. -/
def searchLoopT (enc : Nat → List Nat) (target : Nat) :
    Nat → Nat → Option (List Nat) → List Nat → List (List Nat) → Nat →
    List Nat × List (List Nat)
  | _, _, best_under, smallest, tried, 0 => (best_under.getD smallest, tried)
  | lo, hi, best_under, smallest, tried, fuel + 1 =>
    if lo ≤ hi then
      let mid := (lo + hi) / 2
      let out := enc mid
      let smallest' := if out.length < smallest.length then out else smallest
      if out.length ≤ target then
        searchLoopT enc target (min (mid + 1) 255) hi (some out) smallest'
          (tried ++ [out]) fuel
      else if mid = 0 then (best_under.getD smallest', tried ++ [out])
      else searchLoopT enc target lo (mid - 1) best_under smallest' (tried ++ [out]) fuel
    else (best_under.getD smallest, tried)

/-- Ghost-instrumented copy of `compress_to_target`: same result, plus
the list of every encoder output observed (the initial `max_quality`
attempt included). -/
def compress_to_targetT (enc : Nat → List Nat) (estf : Nat → Nat → Nat → Nat)
    (max_quality target_bytes : Nat) : List Nat × List (List Nat) :=
  let maxq := clamp_u8 max_quality 1 100
  let minq := min MIN_TARGET_QUALITY maxq
  let best := enc maxq
  if best.length ≤ target_bytes then (best, [best])
  else
    let e := estf maxq best.length target_bytes
    let hi := if minq < e ∧ e < maxq then e else maxq
    searchLoopT enc target_bytes minq hi none best [best] 6

/-- `compress_png_to_target` from src/lib.rs lines 239-310. -/
def compress_png_to_target (E : Extern) (rgba : List Nat) (width height preset : Nat)
    (png_mode : String) (png_max_colors : Nat) (png_dither png_force_quant : Bool)
    (max_quality target_bytes : Nat) : List Nat :=
  compress_to_target
    (fun q => encode_png_with_quality E rgba width height q preset png_mode
      png_max_colors png_dither png_force_quant)
    (estimate_quality E) max_quality target_bytes

/-- `compress_jpeg_to_target` from src/lib.rs lines 312-380. -/
def compress_jpeg_to_target (E : Extern) (rgba : List Nat)
    (width height preset bg_r bg_g bg_b max_quality target_bytes : Nat) : List Nat :=
  compress_to_target
    (fun q => encode_jpeg_rgba E width height rgba q preset bg_r bg_g bg_b)
    (estimate_quality E) max_quality target_bytes

/-! ### PDF image rewriter -/

/-- The per-stream body of the rewriting loop of `compress_pdf_images`
(src/lib.rs lines 563-655): `some (dict', content')` when the stream is
eligible and re-encoded, `none` when any guard skips it.  `quality` and
`preset` arrive already clamped, as in the source.  lopdf's
`set_content` also refreshes the `Length` entry. -/
def rewriteStream (E : Extern) (quality preset : Nat)
    (dict : List (String × PdfObj)) (content : List Nat) :
    Option (List (String × PdfObj) × List Nat) :=
  if ((dictGet dict "Subtype").bind asName) ≠ some "Image" then none
  else
    match streamFilters dict with
    | none => none
    | some fs =>
      if fs ≠ ["FlateDecode"] then none
      else
        match (dictGet dict "Width").bind asI64 with
        | none => none
        | some wv =>
          if wv ≤ 0 then none
          else
            match (dictGet dict "Height").bind asI64 with
            | none => none
            | some hv =>
              if hv ≤ 0 then none
              else
                if ((dictGet dict "BitsPerComponent").bind asI64).getD 8 ≠ 8 then none
                else
                  match dictGet dict "ColorSpace" with
                  | some (PdfObj.name cs) =>
                    if cs ≠ "DeviceRGB" ∧ cs ≠ "DeviceGray" then none
                    else
                      match E.inflate dict content with
                      | none => none
                      | some decoded =>
                        if wv.toNat * hv.toNat = 0 then none
                        else
                          match (if cs = "DeviceRGB" then
                                   (if decoded.length = wv.toNat * hv.toNat * 3 then
                                      some decoded else none)
                                 else
                                   (if decoded.length = wv.toNat * hv.toNat then
                                      some (decoded.flatMap fun v => [v, v, v]) else none)) with
                          | none => none
                          | some rgb =>
                            let jpeg_bytes :=
                              (E.jpegEncode rgb
                                { width := wv.toNat, height := hv.toNat,
                                  quality := quality, preset := preset,
                                  color_type := ColorType.rgb }).getD []
                            if jpeg_bytes = [] then none
                            else some (rewrittenDict dict jpeg_bytes.length, jpeg_bytes)
                  | _ => none

/-- The iteration of `compress_pdf_images` over `doc.objects`
(src/lib.rs lines 562-656): rewritten object list plus the `changed`
flag. -/
def rewriteObjects (E : Extern) (quality preset : Nat) :
    List (Nat × PdfObj) → List (Nat × PdfObj) × Bool
  | [] => ([], false)
  | (id, obj) :: rest =>
    let tail := rewriteObjects E quality preset rest
    match obj with
    | PdfObj.stream dict content =>
      match rewriteStream E quality preset dict content with
      | some (d', c') => ((id, PdfObj.stream d' c') :: tail.1, true)
      | none => ((id, obj) :: tail.1, tail.2)
    | _ => ((id, obj) :: tail.1, tail.2)

/-- `compress_pdf_images` from src/lib.rs lines 548-668. -/
def compress_pdf_images (E : Extern) (pdf : List Nat) (quality preset : Nat) : List Nat :=
  if pdf = [] then []
  else
    match E.pdfParse pdf with
    | none => pdf
    | some objs =>
      let r := rewriteObjects E (clamp_u8 quality 1 100) (clamp_u8 preset 0 2) objs
      if r.2 = false then pdf
      else
        match E.pdfSave r.1 with
        | some out => out
        | none => pdf

/-- `compress_pdf_to_target` from src/lib.rs lines 382-426. -/
def compress_pdf_to_target (E : Extern) (pdf : List Nat)
    (max_quality preset target_bytes : Nat) : List Nat :=
  compress_to_target (fun q => compress_pdf_images E pdf q preset)
    (estimate_quality E) max_quality target_bytes

/-! ### Top-level entry point -/

/-- The output-mode resolution block of `compress_file` (src/lib.rs
lines 454-465), on the already-lowercased mime/ext. -/
def resolve_out_mode (mime ext out_mode_sel : String) (bytes : List Nat)
    (bg_transparent : Bool) : String :=
  let kind := input_kind mime ext
  let m0 := choose_out_mode mime ext out_mode_sel
  let m1 :=
    if is_pdf mime ext bytes then "pdf"
    else if m0 = "pdf" then choose_out_mode mime ext "auto"
    else m0
  if bg_transparent ∧ m1 = "jpeg" ∧ kind = "png" then "png" else m1

/-- `compress_file` from src/lib.rs lines 429-545.  `none` models the
propagated raster-decode error; `min (target_kb * 1024) (2 ^ 32 - 1)` is
`target_kb.saturating_mul(1024)` on `u32`.  After a resize the buffer's
dimensions equal the requested ones (contract of the external resizer),
so `(width, height)` is `scale_to_max_side`'s result in both branches. -/
def compress_file (E : Extern) (bytes : List Nat) (mime ext out_mode_sel : String)
    (quality preset max_side target_kb bg_r bg_g bg_b : Nat) (png_mode : String)
    (png_max_colors : Nat) (png_dither png_force_quant bg_transparent : Bool) :
    Option (List Nat × String) :=
  if bytes = [] then some ([], "jpeg")
  else
    let mimeL := strToLower mime
    let extL := strToLower ext
    let kind := input_kind mimeL extL
    let out_mode := resolve_out_mode mimeL extL out_mode_sel bytes bg_transparent
    let q := clamp_u8 quality 1 100
    let p := clamp_u8 preset 0 2
    let target_bytes := min (target_kb * 1024) (2 ^ 32 - 1)
    if out_mode = "pdf" then
      some ((if 0 < target_bytes then compress_pdf_to_target E bytes q p target_bytes
             else compress_pdf_images E bytes q p), "pdf")
    else
      match E.decodeImage bytes with
      | none => none
      | some (w, h, rgba0) =>
        let wh := scale_to_max_side w h max_side
        let rgba := if wh.1 ≠ w ∨ wh.2 ≠ h then E.resizeImage rgba0 w h wh.1 wh.2 else rgba0
        if out_mode = "png" then
          let pm := strToLower png_mode
          let enc_bytes :=
            if 0 < target_bytes then
              compress_png_to_target E rgba wh.1 wh.2 p pm png_max_colors png_dither
                png_force_quant q target_bytes
            else
              encode_png_with_quality E rgba wh.1 wh.2 q p pm png_max_colors png_dither
                png_force_quant
          if target_bytes = 0 ∧ (wh.1 = w ∧ wh.2 = h) ∧ kind = "png" ∧
              bytes.length ≤ enc_bytes.length then
            some (bytes, "png")
          else some (enc_bytes, "png")
        else
          let enc_bytes :=
            if 0 < target_bytes then
              compress_jpeg_to_target E rgba wh.1 wh.2 p bg_r bg_g bg_b q target_bytes
            else
              encode_jpeg_rgba E wh.1 wh.2 rgba q p bg_r bg_g bg_b
          if target_bytes = 0 ∧ (wh.1 = w ∧ wh.2 = h) ∧ kind = "jpeg" ∧
              bytes.length ≤ enc_bytes.length then
            some (bytes, "jpeg")
          else some (enc_bytes, "jpeg")

/-- A trivial oracle bundle, used to instantiate theorems at concrete
inputs. -/
def trivExt : Extern where
  jpegEncode := fun _ _ => none
  pngEncode := fun _ _ => none
  decodeImage := fun _ => none
  resizeImage := fun b _ _ _ _ => b
  pdfParse := fun _ => none
  pdfSave := fun _ => none
  inflate := fun _ _ => none
  estimate := fun m _ _ => m

/-- A one-object sample PDF graph: a 1x1 `DeviceRGB` 8-bit
`FlateDecode` image stream. -/
def sampleDict : List (String × PdfObj) :=
  [("Subtype", PdfObj.name "Image"), ("Filter", PdfObj.name "FlateDecode"),
   ("Width", PdfObj.int 1), ("Height", PdfObj.int 1),
   ("BitsPerComponent", PdfObj.int 8), ("ColorSpace", PdfObj.name "DeviceRGB"),
   ("DecodeParms", PdfObj.other)]

def sampleObjs : List (Nat × PdfObj) :=
  [(1, PdfObj.stream sampleDict [5])]

/-- Oracles that parse any bytes into `sampleObjs`, inflate to a 3-byte
RGB pixel, encode to a 1-byte JPEG, and serialize to `[42]`. -/
def samplePdfExt : Extern where
  jpegEncode := fun _ _ => some [9]
  pngEncode := fun _ _ => none
  decodeImage := fun _ => none
  resizeImage := fun b _ _ _ _ => b
  pdfParse := fun _ => some sampleObjs
  pdfSave := fun _ => some [42]
  inflate := fun _ _ => some [7, 8, 9]
  estimate := fun m _ _ => m

/-- Like `samplePdfExt` but serialization fails. -/
def samplePdfExtNoSave : Extern where
  jpegEncode := fun _ _ => some [9]
  pngEncode := fun _ _ => none
  decodeImage := fun _ => none
  resizeImage := fun b _ _ _ _ => b
  pdfParse := fun _ => some sampleObjs
  pdfSave := fun _ => none
  inflate := fun _ _ => some [7, 8, 9]
  estimate := fun m _ _ => m

/-- Oracles that parse any bytes into an empty object graph. -/
def parseEmptyExt : Extern where
  jpegEncode := fun _ _ => none
  pngEncode := fun _ _ => none
  decodeImage := fun _ => none
  resizeImage := fun b _ _ _ _ => b
  pdfParse := fun _ => some []
  pdfSave := fun _ => none
  inflate := fun _ _ => none
  estimate := fun m _ _ => m

/-- Oracles that decode any bytes into a 1x1 RGBA pixel and encode PNG
to a fixed 5-byte output. -/
def rasterExt : Extern where
  jpegEncode := fun _ _ => none
  pngEncode := fun _ _ => some [1, 2, 3, 4, 5]
  decodeImage := fun _ => some (1, 1, [10, 20, 30, 255])
  resizeImage := fun b _ _ _ _ => b
  pdfParse := fun _ => none
  pdfSave := fun _ => none
  inflate := fun _ _ => none
  estimate := fun m _ _ => m

/-- Fuel needed by the never-fitting descent of the bisection:
`searchBound f` is the largest `hi` from which `mid = 1` is surely
evaluated within `f` iterations (with `lo = 1`). -/
def searchBound : Nat → Nat
  | 0 => 0
  | f + 1 => 2 * searchBound f + 2

/-! ## Helper lemmas -/

theorem f32toU32_f32max_one (x : Nat) : 1 ≤ f32toU32 (f32max x f32one) := by
  unfold f32toU32 f32max f32one
  have h1 : (2 : Nat) ^ 64 ≤ max x (2 ^ 64) := le_max_right _ _
  have h2 : 1 ≤ max x (2 ^ 64) / 2 ^ 64 := by
    rw [Nat.le_div_iff_mul_le (by norm_num)]
    simp only [one_mul]
    exact h1
  exact le_min h2 (by norm_num)

theorem flatMap_congr_mem {α β : Type} (l : List α) (f g : α → List β)
    (h : ∀ a ∈ l, f a = g a) : l.flatMap f = l.flatMap g := by
  induction l with
  | nil => rfl
  | cons x xs ih =>
    simp only [List.flatMap_cons]
    rw [h x (List.mem_cons_self x xs), ih fun a ha => h a (List.mem_cons_of_mem x ha)]

theorem getD_take_eq (l : List Nat) (n i : Nat) (h : i < n) :
    (l.take n).getD i 0 = l.getD i 0 := by
  simp [List.getD_eq_getElem?_getD, List.getElem?_take, h]

/-! ## C7: blend_channel -/

/-- C7: for all byte-range `src`, `a`, `bg`, `blend_channel src a bg`
equals the rounded integer alpha blend
`(src * a + bg * (255 - a) + 127) / 255`; in particular alpha `255`
returns `src` and alpha `0` returns `bg`. -/
theorem c7_blend_channel (src a bg : Nat) (hs : src ≤ 255) (ha : a ≤ 255)
    (hb : bg ≤ 255) :
    blend_channel src a bg = (src * a + bg * (255 - a) + 127) / 255 ∧
    blend_channel src 255 bg = src ∧
    blend_channel src 0 bg = bg := by
  refine ⟨?_, ?_, ?_⟩
  · unfold blend_channel
    have h1 : src * a ≤ 255 * a := Nat.mul_le_mul_right a hs
    have h2 : bg * (255 - a) ≤ 255 * (255 - a) := Nat.mul_le_mul_right _ hb
    omega
  · unfold blend_channel
    have h2 : bg * (255 - 255) = 0 := by omega
    omega
  · unfold blend_channel
    have h1 : src * 0 = 0 := by omega
    omega

theorem c7_witness :
    blend_channel 10 128 200 = (10 * 128 + 200 * (255 - 128) + 127) / 255 ∧
    blend_channel 10 255 200 = 10 ∧
    blend_channel 10 0 200 = 200 :=
  c7_blend_channel 10 128 200 (by decide) (by decide) (by decide)

/-! ## C8: scale_to_max_side -/

/-- C8 counterexample: at `w = 2 ^ 31`, `h = 1`, `max_side = 2 ^ 31 - 1`
the `u32 → f32` conversion rounds `max_side` up to `2 ^ 31`, the computed
scale is exactly `1.0`, and the result keeps the long side at `2 ^ 31`,
violating `max w' h' ≤ max_side`. -/
theorem c8_counterexample :
    (0 < 2147483647 ∧ 2147483647 < max 2147483648 1) ∧
    scale_to_max_side 2147483648 1 2147483647 = (2147483648, 1) ∧
    ¬ (max (scale_to_max_side 2147483648 1 2147483647).1
        (scale_to_max_side 2147483648 1 2147483647).2 ≤ 2147483647) := by
  refine ⟨by decide, by decide, by decide⟩

/-- C8 (amended): `scale_to_max_side w h 0 = (w, h)`; if
`max w h ≤ max_side` the input is returned unchanged; and in the scaling
branch both returned dimensions are at least `1`.  (The bound
`max w' h' ≤ max_side` of the original claim fails for dimensions near
`2 ^ 31`, see the counterexample.) -/
theorem c8_scale_to_max_side_amended (w h ms : Nat) :
    scale_to_max_side w h 0 = (w, h) ∧
    (max w h ≤ ms → scale_to_max_side w h ms = (w, h)) ∧
    (0 < ms → ms < max w h →
      1 ≤ (scale_to_max_side w h ms).1 ∧ 1 ≤ (scale_to_max_side w h ms).2) := by
  refine ⟨by simp [scale_to_max_side], ?_, ?_⟩
  · intro hle
    by_cases h0 : ms = 0
    · subst h0; simp [scale_to_max_side]
    · simp [scale_to_max_side, h0, hle]
  · intro h0 hlt
    have hms : ¬ ms = 0 := by omega
    have hnle : ¬ max w h ≤ ms := by omega
    simp only [scale_to_max_side, if_neg hms, if_neg hnle]
    exact ⟨f32toU32_f32max_one _, f32toU32_f32max_one _⟩

theorem c8_witness :
    scale_to_max_side 3 4 5 = (3, 4) ∧
    (1 ≤ (scale_to_max_side 10 2 4).1 ∧ 1 ≤ (scale_to_max_side 10 2 4).2) :=
  ⟨(c8_scale_to_max_side_amended 3 4 5).2.1 (by decide),
   (c8_scale_to_max_side_amended 10 2 4).2.2 (by decide) (by decide)⟩

/-! ## C6: PDF detection forces the pdf output mode -/

/-- C6 counterexample: for empty input bytes `compress_file` returns the
mode tag `"jpeg"` before any detection runs, even though the MIME string
`"application/pdf"` satisfies the PDF-detection predicate and the caller
selected `"jpeg"`; the resolved mode is not `"pdf"`. -/
theorem c6_counterexample :
    is_pdf (strToLower "application/pdf") (strToLower "") [] = true ∧
    compress_file trivExt [] "application/pdf" "" "jpeg" 80 1 0 0 0 0 0 "auto"
      256 false false false = some ([], "jpeg") ∧
    Option.map Prod.snd (compress_file trivExt [] "application/pdf" "" "jpeg" 80 1 0
      0 0 0 0 "auto" 256 false false false) ≠ some "pdf" := by
  refine ⟨by decide, by decide, by decide⟩

/-- C6 (amended): for *non-empty* input bytes, whenever the PDF
detection `is_pdf` holds on the lowercased MIME/extension (MIME
containing `"pdf"`, extension `"pdf"`, or leading magic bytes `%PDF`),
`compress_file` resolves the output mode to `"pdf"` regardless of the
caller's explicit `out_mode_sel`. -/
theorem c6_pdf_detection_amended (E : Extern) (bytes : List Nat)
    (mime ext out_mode_sel : String)
    (quality preset max_side target_kb bg_r bg_g bg_b : Nat) (png_mode : String)
    (png_max_colors : Nat) (png_dither png_force_quant bg_transparent : Bool)
    (hne : bytes ≠ []) (hpdf : is_pdf (strToLower mime) (strToLower ext) bytes = true) :
    ∃ out, compress_file E bytes mime ext out_mode_sel quality preset max_side
      target_kb bg_r bg_g bg_b png_mode png_max_colors png_dither png_force_quant
      bg_transparent = some (out, "pdf") := by
  unfold compress_file resolve_out_mode
  simp only [if_neg hne, hpdf, if_true]
  have hres :
      (if bg_transparent ∧ "pdf" = "jpeg" ∧ input_kind (strToLower mime) (strToLower ext) = "png"
        then "png" else "pdf") = "pdf" := by
    simp
  rw [hres]
  simp only [if_pos rfl]
  exact ⟨_, rfl⟩

theorem c6_witness :
    ∃ out, compress_file trivExt [37, 80, 68, 70, 45] "application/pdf" "" "jpeg" 80 1
      0 0 0 0 0 "auto" 256 false false false = some (out, "pdf") :=
  c6_pdf_detection_amended trivExt [37, 80, 68, 70, 45] "application/pdf" "" "jpeg"
    80 1 0 0 0 0 0 "auto" 256 false false false (by decide) (by decide)

/-! ## C9: encoder size guards -/

theorem compositeRgb_take (rgba : List Nat) (px bg_r bg_g bg_b : Nat) :
    compositeRgb (rgba.take (px * 4)) px bg_r bg_g bg_b =
      compositeRgb rgba px bg_r bg_g bg_b := by
  unfold compositeRgb
  refine flatMap_congr_mem _ _ _ fun i hi => ?_
  have hi' : i < px := List.mem_range.mp hi
  rw [getD_take_eq rgba (px * 4) (i * 4) (by omega),
    getD_take_eq rgba (px * 4) (i * 4 + 1) (by omega),
    getD_take_eq rgba (px * 4) (i * 4 + 2) (by omega),
    getD_take_eq rgba (px * 4) (i * 4 + 3) (by omega)]

/-- C9: for every quality, preset and background, both single-shot
encoders return the empty byte vector on a buffer shorter than
`width * height * 4` or on a zero-area image; moreover the JPEG encoder
reads only the first `width * height * 4` bytes of the buffer (its
result is unchanged under truncating the buffer there). -/
theorem c9_encoder_guards (E : Extern) (width height : Nat) (rgba : List Nat)
    (quality preset bg_r bg_g bg_b : Nat) (lossless : Bool) (max_colors : Nat)
    (dithering force_quant : Bool) :
    ((rgba.length < width * height * 4 ∨ width * height = 0) →
      encode_jpeg_rgba E width height rgba quality preset bg_r bg_g bg_b = [] ∧
      encode_png_rgba E width height rgba preset lossless max_colors dithering
        force_quant = []) ∧
    encode_jpeg_rgba E width height (rgba.take (width * height * 4)) quality preset
      bg_r bg_g bg_b =
      encode_jpeg_rgba E width height rgba quality preset bg_r bg_g bg_b := by
  constructor
  · intro hbad
    constructor
    · unfold encode_jpeg_rgba
      rw [if_pos hbad]
    · unfold encode_png_rgba
      rw [if_pos hbad]
  · by_cases hbad : rgba.length < width * height * 4 ∨ width * height = 0
    · have hbad' : (rgba.take (width * height * 4)).length < width * height * 4 ∨
          width * height = 0 := by
        rcases hbad with h | h
        · left; simpa using h
        · right; exact h
      unfold encode_jpeg_rgba
      rw [if_pos hbad, if_pos hbad']
    · push_neg at hbad
      have hlen : width * height * 4 ≤ rgba.length := hbad.1
      have hbad' : ¬ ((rgba.take (width * height * 4)).length < width * height * 4 ∨
          width * height = 0) := by
        push_neg
        constructor
        · simp [hlen]
        · exact hbad.2
      unfold encode_jpeg_rgba
      rw [if_neg hbad', if_neg (by push_neg; exact hbad)]
      rw [compositeRgb_take]

theorem c9_witness :
    (encode_jpeg_rgba trivExt 2 2 [0, 0, 0] 80 1 255 255 255 = [] ∧
      encode_png_rgba trivExt 2 2 [0, 0, 0] 1 false 256 false false = []) ∧
    encode_jpeg_rgba trivExt 1 1 ([1, 2, 3, 4, 9, 9].take (1 * 1 * 4)) 80 1 0 0 0 =
      encode_jpeg_rgba trivExt 1 1 [1, 2, 3, 4, 9, 9] 80 1 0 0 0 :=
  ⟨(c9_encoder_guards trivExt 2 2 [0, 0, 0] 80 1 255 255 255 false 256 false
      false).1 (by decide),
   (c9_encoder_guards trivExt 1 1 [1, 2, 3, 4, 9, 9] 80 1 0 0 0 false 256 false
      false).2⟩

/-! ## Target-size search lemmas -/

theorem clamp_u8_le (v lo hi : Nat) (h : lo ≤ hi) :
    lo ≤ clamp_u8 v lo hi ∧ clamp_u8 v lo hi ≤ hi := by
  unfold clamp_u8
  split_ifs <;> omega

/-- Once a fitting `best_under` is recorded, the loop's result fits. -/
theorem searchLoop_some_fits (enc : Nat → List Nat) (target : Nat) :
    ∀ fuel lo hi b sm, b.length ≤ target →
      (searchLoop enc target lo hi (some b) sm fuel).length ≤ target := by
  intro fuel
  induction fuel with
  | zero => intro lo hi b sm hb; simpa [searchLoop] using hb
  | succ f ih =>
    intro lo hi b sm hb
    by_cases hle : lo ≤ hi
    · by_cases hfit : (enc ((lo + hi) / 2)).length ≤ target
      · simp only [searchLoop, if_pos hle, if_pos hfit]
        exact ih _ _ _ _ hfit
      · by_cases hmid : (lo + hi) / 2 = 0
        · simpa [searchLoop, if_pos hle, if_neg hfit, if_pos hmid] using hb
        · simp only [searchLoop, if_pos hle, if_neg hfit, if_neg hmid]
          exact ih _ _ _ _ hb
    · simpa [searchLoop, if_neg hle] using hb

/-- The loop's result is never longer than `max target smallest.length`
as long as any recorded `best_under` fits. -/
theorem searchLoop_le (enc : Nat → List Nat) (target : Nat) :
    ∀ fuel lo hi bu sm, (∀ b, bu = some b → b.length ≤ target) →
      (searchLoop enc target lo hi bu sm fuel).length ≤ max target sm.length := by
  intro fuel
  induction fuel with
  | zero =>
    intro lo hi bu sm hbu
    cases bu with
    | none => simp [searchLoop, le_max_right]
    | some b =>
      have := hbu b rfl
      simp only [searchLoop, Option.getD]
      omega
  | succ f ih =>
    intro lo hi bu sm hbu
    have hsm : (if (enc ((lo + hi) / 2)).length < sm.length then enc ((lo + hi) / 2)
        else sm).length ≤ sm.length := by
      split_ifs with hc
      · omega
      · exact le_refl _
    by_cases hle : lo ≤ hi
    · by_cases hfit : (enc ((lo + hi) / 2)).length ≤ target
      · simp only [searchLoop, if_pos hle, if_pos hfit]
        have h := ih (min ((lo + hi) / 2 + 1) 255) hi (some (enc ((lo + hi) / 2)))
          (if (enc ((lo + hi) / 2)).length < sm.length then enc ((lo + hi) / 2) else sm)
          (fun b hb => by cases hb; exact hfit)
        omega
      · by_cases hmid : (lo + hi) / 2 = 0
        · cases bu with
          | none =>
            simp only [searchLoop, if_pos hle, if_neg hfit, if_pos hmid, Option.getD]
            omega
          | some b =>
            have := hbu b rfl
            simp only [searchLoop, if_pos hle, if_neg hfit, if_pos hmid, Option.getD]
            omega
        · simp only [searchLoop, if_pos hle, if_neg hfit, if_neg hmid]
          have h := ih lo ((lo + hi) / 2 - 1) bu
            (if (enc ((lo + hi) / 2)).length < sm.length then enc ((lo + hi) / 2) else sm)
            hbu
          omega
    · cases bu with
      | none => simp [searchLoop, if_neg hle, le_max_right]
      | some b =>
        have := hbu b rfl
        simp only [searchLoop, if_neg hle, Option.getD]
        omega

/-- If quality `1` fits, the bisection from `lo = 1` finds a fitting
output whenever `hi ≤ searchBound fuel`. -/
theorem searchLoop_one_fits (enc : Nat → List Nat) (target : Nat)
    (h1 : (enc 1).length ≤ target) :
    ∀ fuel hi bu sm, 1 ≤ hi → hi ≤ searchBound fuel →
      (searchLoop enc target 1 hi bu sm fuel).length ≤ target := by
  intro fuel
  induction fuel with
  | zero =>
    intro hi bu sm hhi hbound
    simp only [searchBound] at hbound
    omega
  | succ f ih =>
    intro hi bu sm hhi hbound
    have hle : 1 ≤ hi := hhi
    by_cases hfit : (enc ((1 + hi) / 2)).length ≤ target
    · simp only [searchLoop, if_pos hle, if_pos hfit]
      exact searchLoop_some_fits enc target f _ _ _ _ hfit
    · have hmid1 : (1 + hi) / 2 ≠ 1 := by
        intro hm
        rw [hm] at hfit
        exact hfit h1
      have hmid0 : ¬ (1 + hi) / 2 = 0 := by omega
      simp only [searchLoop, if_pos hle, if_neg hfit, if_neg hmid0]
      have hb : searchBound (f + 1) = 2 * searchBound f + 2 := rfl
      exact ih ((1 + hi) / 2 - 1) _ _ (by omega) (by omega)

/-- The instrumented loop computes the same result as `searchLoop`. -/
theorem searchLoopT_fst (enc : Nat → List Nat) (target : Nat) :
    ∀ fuel lo hi bu sm tr,
      (searchLoopT enc target lo hi bu sm tr fuel).1 =
        searchLoop enc target lo hi bu sm fuel := by
  intro fuel
  induction fuel with
  | zero => intro lo hi bu sm tr; rfl
  | succ f ih =>
    intro lo hi bu sm tr
    by_cases hle : lo ≤ hi
    · by_cases hfit : (enc ((lo + hi) / 2)).length ≤ target
      · simp only [searchLoop, searchLoopT, if_pos hle, if_pos hfit]
        exact ih _ _ _ _ _
      · by_cases hmid : (lo + hi) / 2 = 0
        · simp only [searchLoop, searchLoopT, if_pos hle, if_neg hfit, if_pos hmid]
        · simp only [searchLoop, searchLoopT, if_pos hle, if_neg hfit, if_neg hmid]
          exact ih _ _ _ _ _
    · simp only [searchLoop, searchLoopT, if_neg hle]

/-- When no reachable quality fits, the loop returns the first shortest
output among the evaluated ones. -/
theorem searchLoopT_min (enc : Nat → List Nat) (target M : Nat)
    (hnofit : ∀ q, 1 ≤ q → q ≤ M → target < (enc q).length) :
    ∀ fuel lo hi sm tr, 1 ≤ lo → lo ≤ hi → hi ≤ M → sm ∈ tr →
      (∀ o ∈ tr, sm.length ≤ o.length) →
      (searchLoopT enc target lo hi none sm tr fuel).1 ∈
        (searchLoopT enc target lo hi none sm tr fuel).2 ∧
      ∀ o ∈ (searchLoopT enc target lo hi none sm tr fuel).2,
        ((searchLoopT enc target lo hi none sm tr fuel).1).length ≤ o.length := by
  intro fuel
  induction fuel with
  | zero =>
    intro lo hi sm tr hlo hlohi hhi hmem hmin
    exact ⟨hmem, hmin⟩
  | succ f ih =>
    intro lo hi sm tr hlo hlohi hhi hmem hmin
    have hmidlo : lo ≤ (lo + hi) / 2 := by omega
    have hmidhi : (lo + hi) / 2 ≤ hi := by omega
    have hnf := hnofit ((lo + hi) / 2) (by omega) (by omega)
    have hfit : ¬ (enc ((lo + hi) / 2)).length ≤ target := by omega
    have hmid0 : ¬ (lo + hi) / 2 = 0 := by omega
    have hle : lo ≤ hi := hlohi
    simp only [searchLoopT, if_pos hle, if_neg hfit, if_neg hmid0]
    have hmem' : (if (enc ((lo + hi) / 2)).length < sm.length then enc ((lo + hi) / 2)
        else sm) ∈ tr ++ [enc ((lo + hi) / 2)] := by
      split_ifs with hc
      · exact List.mem_append_right _ (List.mem_singleton.mpr rfl)
      · exact List.mem_append_left _ hmem
    have hmin' : ∀ o ∈ tr ++ [enc ((lo + hi) / 2)],
        (if (enc ((lo + hi) / 2)).length < sm.length then enc ((lo + hi) / 2)
          else sm).length ≤ o.length := by
      intro o ho
      rcases List.mem_append.mp ho with ho | ho
      · have := hmin o ho
        split_ifs with hc <;> omega
      · rw [List.mem_singleton.mp ho]
        split_ifs with hc <;> omega
    by_cases hlohi' : lo ≤ (lo + hi) / 2 - 1
    · exact ih lo ((lo + hi) / 2 - 1) _ _ hlo hlohi' (by omega) hmem' hmin'
    · cases f with
      | zero => exact ⟨hmem', hmin'⟩
      | succ f' =>
        simp only [searchLoopT, if_neg hlohi']
        exact ⟨hmem', hmin'⟩

/-! ## C1: target-size search correctness -/

/-- C1 counterexample: with the per-quality encoder taken as a given
size function, the bounded 6-iteration bisection can miss the only
fitting quality.  Here quality `3` (and only it) fits the budget `1`,
but the bisection path from the estimate `66` tries `33, 16, 8, 4, 2, 1`
and returns a 2-byte output.  (`66` is the value the source's
floating-point `estimate_quality` produces for `ratio = 2/1 = 0.5`,
namely `round(100 * 0.5^0.6)`.) -/
theorem c1_counterexample :
    (∃ q, 1 ≤ q ∧ q ≤ clamp_u8 100 1 100 ∧
      ((fun q => if q = 3 then ([] : List Nat) else [0, 0]) q).length ≤ 1) ∧
    1 < (compress_to_target (fun q => if q = 3 then ([] : List Nat) else [0, 0])
      (fun _ _ _ => 66) 100 1).length := by
  exact ⟨⟨3, by decide, by decide, by decide⟩, by decide⟩

/-- C1 (amended): when the encoder's output length is monotone
non-decreasing in the quality, the search returns a result within the
budget whenever some quality in `[1, clamped max_quality]` fits; and
whenever no quality in range fits, it returns the first shortest output
among the attempts it actually made (the instrumented
`compress_to_targetT` lists them).  For non-monotone encoders the
under-budget part fails, see the counterexample. -/
theorem c1_target_search_amended (enc : Nat → List Nat)
    (estf : Nat → Nat → Nat → Nat) (max_quality target_bytes : Nat) :
    ((∀ q q', q ≤ q' → (enc q).length ≤ (enc q').length) →
      (∃ q, 1 ≤ q ∧ q ≤ clamp_u8 max_quality 1 100 ∧ (enc q).length ≤ target_bytes) →
      (compress_to_target enc estf max_quality target_bytes).length ≤ target_bytes) ∧
    ((∀ q, 1 ≤ q → q ≤ clamp_u8 max_quality 1 100 → target_bytes < (enc q).length) →
      compress_to_target enc estf max_quality target_bytes =
        (compress_to_targetT enc estf max_quality target_bytes).1 ∧
      (compress_to_targetT enc estf max_quality target_bytes).1 ∈
        (compress_to_targetT enc estf max_quality target_bytes).2 ∧
      ∀ o ∈ (compress_to_targetT enc estf max_quality target_bytes).2,
        ((compress_to_targetT enc estf max_quality target_bytes).1).length ≤
          o.length) := by
  have hcl := clamp_u8_le max_quality 1 100 (by norm_num)
  have hminq : min MIN_TARGET_QUALITY (clamp_u8 max_quality 1 100) = 1 := by
    unfold MIN_TARGET_QUALITY
    omega
  constructor
  · intro mono hex
    obtain ⟨q, hq1, hq2, hqfit⟩ := hex
    have h1fit : (enc 1).length ≤ target_bytes := le_trans (mono 1 q hq1) hqfit
    unfold compress_to_target
    by_cases hbest : (enc (clamp_u8 max_quality 1 100)).length ≤ target_bytes
    · simp only [if_pos hbest]
      exact hbest
    · simp only [if_neg hbest, hminq]
      by_cases he : 1 < estf (clamp_u8 max_quality 1 100)
          (enc (clamp_u8 max_quality 1 100)).length target_bytes ∧
          estf (clamp_u8 max_quality 1 100)
            (enc (clamp_u8 max_quality 1 100)).length target_bytes <
            clamp_u8 max_quality 1 100
      · rw [if_pos he]
        refine searchLoop_one_fits enc target_bytes h1fit 6 _ none _ (by omega) ?_
        have : searchBound 6 = 126 := by decide
        omega
      · rw [if_neg he]
        refine searchLoop_one_fits enc target_bytes h1fit 6 _ none _ (by omega) ?_
        have : searchBound 6 = 126 := by decide
        omega
  · intro hnofit
    have hbest : ¬ (enc (clamp_u8 max_quality 1 100)).length ≤ target_bytes := by
      have := hnofit (clamp_u8 max_quality 1 100) hcl.1 (le_refl _)
      omega
    unfold compress_to_target compress_to_targetT
    simp only [if_neg hbest, hminq]
    have hfst := searchLoopT_fst enc target_bytes 6 1
      (if 1 < estf (clamp_u8 max_quality 1 100)
            (enc (clamp_u8 max_quality 1 100)).length target_bytes ∧
          estf (clamp_u8 max_quality 1 100)
            (enc (clamp_u8 max_quality 1 100)).length target_bytes <
            clamp_u8 max_quality 1 100
        then estf (clamp_u8 max_quality 1 100)
          (enc (clamp_u8 max_quality 1 100)).length target_bytes
        else clamp_u8 max_quality 1 100)
      none (enc (clamp_u8 max_quality 1 100)) [enc (clamp_u8 max_quality 1 100)]
    refine ⟨hfst.symm, ?_⟩
    refine searchLoopT_min enc target_bytes (clamp_u8 max_quality 1 100) hnofit 6 1 _
      _ _ (le_refl _) ?_ ?_ (List.mem_singleton.mpr rfl) ?_
    · split_ifs with he
      · omega
      · omega
    · split_ifs with he
      · omega
      · exact le_refl _
    · intro o ho
      rw [List.mem_singleton.mp ho]

theorem c1_witness :
    (compress_to_target (fun _ => ([] : List Nat)) (fun _ _ _ => 1) 100 0).length ≤ 0 ∧
    (compress_to_target (fun _ => [0]) (fun _ _ _ => 1) 100 0 =
        (compress_to_targetT (fun _ => [0]) (fun _ _ _ => 1) 100 0).1 ∧
      (compress_to_targetT (fun _ => [0]) (fun _ _ _ => 1) 100 0).1 ∈
        (compress_to_targetT (fun _ => [0]) (fun _ _ _ => 1) 100 0).2 ∧
      ∀ o ∈ (compress_to_targetT (fun _ => [0]) (fun _ _ _ => 1) 100 0).2,
        ((compress_to_targetT (fun _ => [0]) (fun _ _ _ => 1) 100 0).1).length ≤
          o.length) :=
  ⟨(c1_target_search_amended (fun _ => ([] : List Nat)) (fun _ _ _ => 1) 100 0).1
    (fun _ _ _ => le_refl _) ⟨1, by decide, by decide, by decide⟩,
   (c1_target_search_amended (fun _ => [0]) (fun _ _ _ => 1) 100 0).2
    (fun _ _ _ => by decide)⟩

/-! ## C2: behaviour as the target budget varies -/

set_option maxRecDepth 100000 in
/-- C2 counterexample: the same input (encoder sizes
`q ↦ if q ≤ 58 then q else 200`) with max quality `100` returns a
58-byte output for the smaller budget `80` but a 57-byte output for the
larger budget `199` — the result is not monotone in the target.  The
estimate values `58` and `100` are exactly what the source's
floating-point `estimate_quality` yields at these two points
(`round(100 * 0.4^0.6) = 58` and `round(100 * 0.995^0.6) = 100`). -/
theorem c2_counterexample :
    (80 : Nat) ≤ 199 ∧
    (compress_to_target (fun q => List.replicate (if q ≤ 58 then q else 200) 0)
        (fun _ _ t => if t = 80 then 58 else 100) 100 199).length <
      (compress_to_target (fun q => List.replicate (if q ≤ 58 then q else 200) 0)
        (fun _ _ t => if t = 80 then 58 else 100) 100 80).length := by
  exact ⟨by decide, by decide⟩

/-- C2 (amended): monotonicity in the target budget fails (see the
counterexample); what does hold for every budget is that the search
never returns an output longer than the single encode at the clamped
max quality (the no-budget result). -/
theorem c2_bounded_by_single_shot (enc : Nat → List Nat)
    (estf : Nat → Nat → Nat → Nat) (max_quality target_bytes : Nat) :
    (compress_to_target enc estf max_quality target_bytes).length ≤
      (enc (clamp_u8 max_quality 1 100)).length := by
  unfold compress_to_target
  by_cases hbest : (enc (clamp_u8 max_quality 1 100)).length ≤ target_bytes
  · simp only [if_pos hbest]
    exact le_refl _
  · simp only [if_neg hbest]
    have h := searchLoop_le enc target_bytes 6
      (min MIN_TARGET_QUALITY (clamp_u8 max_quality 1 100))
      (if min MIN_TARGET_QUALITY (clamp_u8 max_quality 1 100) <
            estf (clamp_u8 max_quality 1 100)
              (enc (clamp_u8 max_quality 1 100)).length target_bytes ∧
          estf (clamp_u8 max_quality 1 100)
            (enc (clamp_u8 max_quality 1 100)).length target_bytes <
            clamp_u8 max_quality 1 100
        then estf (clamp_u8 max_quality 1 100)
          (enc (clamp_u8 max_quality 1 100)).length target_bytes
        else clamp_u8 max_quality 1 100)
      none (enc (clamp_u8 max_quality 1 100)) (fun b hb => by cases hb)
    omega

/-! ## PDF dictionary lemmas -/

theorem dictGet_dictSet_self (d : List (String × PdfObj)) (k : String) (v : PdfObj) :
    dictGet (dictSet d k v) k = some v := by
  induction d with
  | nil => simp [dictGet, dictSet]
  | cons head rest ih =>
    obtain ⟨k', v'⟩ := head
    by_cases hk : k' = k
    · simp [dictSet, dictGet, hk]
    · simp [dictSet, dictGet, hk, ih]

theorem dictGet_dictSet_ne (d : List (String × PdfObj)) (k k' : String) (v : PdfObj)
    (h : k' ≠ k) : dictGet (dictSet d k' v) k = dictGet d k := by
  induction d with
  | nil => simp [dictGet, dictSet, h]
  | cons head rest ih =>
    obtain ⟨k'', v''⟩ := head
    by_cases hk : k'' = k'
    · subst hk
      simp [dictSet, dictGet, h]
    · simp only [dictSet, if_neg hk, dictGet]
      by_cases hk2 : k'' = k
      · simp [hk2]
      · simp [hk2, ih]

theorem dictGet_dictRemove_self (d : List (String × PdfObj)) (k : String) :
    dictGet (dictRemove d k) k = none := by
  induction d with
  | nil => simp [dictGet, dictRemove]
  | cons head rest ih =>
    obtain ⟨k', v⟩ := head
    by_cases hk : k' = k
    · simp [dictRemove, hk, ih]
    · simp [dictRemove, dictGet, hk, ih]

theorem dictGet_dictRemove_ne (d : List (String × PdfObj)) (k k' : String)
    (h : k' ≠ k) : dictGet (dictRemove d k') k = dictGet d k := by
  induction d with
  | nil => simp [dictGet, dictRemove]
  | cons head rest ih =>
    obtain ⟨k'', v⟩ := head
    by_cases hk : k'' = k'
    · subst hk
      simp [dictRemove, dictGet, h, Ne.symm h, ih]
    · simp only [dictRemove, if_neg hk, dictGet]
      by_cases hk2 : k'' = k
      · simp [hk2]
      · simp [hk2, ih]

theorem rewrittenDict_filter (dict : List (String × PdfObj)) (len : Nat) :
    dictGet (rewrittenDict dict len) "Filter" = some (PdfObj.name "DCTDecode") := by
  unfold rewrittenDict
  rw [dictGet_dictRemove_ne _ _ _ (by decide), dictGet_dictSet_ne _ _ _ _ (by decide),
    dictGet_dictSet_ne _ _ _ _ (by decide), dictGet_dictSet_self]

theorem rewrittenDict_colorspace (dict : List (String × PdfObj)) (len : Nat) :
    dictGet (rewrittenDict dict len) "ColorSpace" = some (PdfObj.name "DeviceRGB") := by
  unfold rewrittenDict
  rw [dictGet_dictRemove_ne _ _ _ (by decide), dictGet_dictSet_ne _ _ _ _ (by decide),
    dictGet_dictSet_self]

theorem rewrittenDict_bits (dict : List (String × PdfObj)) (len : Nat) :
    dictGet (rewrittenDict dict len) "BitsPerComponent" = some (PdfObj.int 8) := by
  unfold rewrittenDict
  rw [dictGet_dictRemove_ne _ _ _ (by decide), dictGet_dictSet_self]

theorem rewrittenDict_decodeparms (dict : List (String × PdfObj)) (len : Nat) :
    dictGet (rewrittenDict dict len) "DecodeParms" = none := by
  unfold rewrittenDict
  rw [dictGet_dictRemove_self]

/-! ## PDF rewriter lemmas -/

/-- On an eligible stream, `rewriteStream` performs exactly the rewrite
of src/lib.rs lines 646-655. -/
theorem rewriteStream_eligible (E : Extern) (q p : Nat)
    (dict : List (String × PdfObj)) (content : List Nat) (wv hv : Int)
    (data rgb jb : List Nat)
    (hsub : (dictGet dict "Subtype").bind asName = some "Image")
    (hfil : streamFilters dict = some ["FlateDecode"])
    (hw : (dictGet dict "Width").bind asI64 = some wv) (hw0 : 0 < wv)
    (hh : (dictGet dict "Height").bind asI64 = some hv) (hh0 : 0 < hv)
    (hbits : ((dictGet dict "BitsPerComponent").bind asI64).getD 8 = 8)
    (hinf : E.inflate dict content = some data)
    (hcs : (dictGet dict "ColorSpace" = some (PdfObj.name "DeviceRGB") ∧
             data.length = wv.toNat * hv.toNat * 3 ∧ rgb = data) ∨
           (dictGet dict "ColorSpace" = some (PdfObj.name "DeviceGray") ∧
             data.length = wv.toNat * hv.toNat ∧
             rgb = data.flatMap fun v => [v, v, v]))
    (henc : E.jpegEncode rgb
      { width := wv.toNat, height := hv.toNat, quality := q, preset := p,
        color_type := ColorType.rgb } = some jb)
    (hjb : jb ≠ []) :
    rewriteStream E q p dict content = some (rewrittenDict dict jb.length, jb) := by
  have hsub' : ¬ ((dictGet dict "Subtype").bind asName ≠ some "Image") := by
    rw [hsub]
    exact fun hc => hc rfl
  have hwle : ¬ wv ≤ 0 := by omega
  have hhle : ¬ hv ≤ 0 := by omega
  have hwpos : 0 < wv.toNat := by omega
  have hhpos : 0 < hv.toNat := by omega
  have hpx : ¬ (wv.toNat * hv.toNat = 0) := by
    have := Nat.mul_pos hwpos hhpos
    omega
  rcases hcs with ⟨hcseq, hlen, hrgb⟩ | ⟨hcseq, hlen, hrgb⟩
  · subst hrgb
    simp only [rewriteStream, hsub', if_false, hfil, hw, hh, hbits, hinf, hcseq,
      if_neg hwle, if_neg hhle, if_neg hpx, hlen, henc]
    simp [henc, hjb]
  · subst hrgb
    simp only [rewriteStream, hsub', if_false, hfil, hw, hh, hbits, hinf, hcseq,
      if_neg hwle, if_neg hhle, if_neg hpx, hlen, henc]
    simp [hjb, hlen, henc]

/-- A successful rewrite returns exactly the rewritten dictionary and
a nonempty JPEG byte vector. -/
theorem rewriteStream_some_shape (E : Extern) (q p : Nat)
    (dict : List (String × PdfObj)) (content : List Nat)
    (d' : List (String × PdfObj)) (c' : List Nat)
    (h : rewriteStream E q p dict content = some (d', c')) :
    d' = rewrittenDict dict c'.length ∧ c' ≠ [] := by
  by_cases hsub : (dictGet dict "Subtype").bind asName ≠ some "Image"
  · rw [rewriteStream, if_pos hsub] at h
    exact Option.noConfusion h
  · rcases hfil : streamFilters dict with _ | fs
    · simp only [rewriteStream, if_neg hsub, hfil] at h
      exact Option.noConfusion h
    · by_cases hfs : fs ≠ ["FlateDecode"]
      · simp only [rewriteStream, if_neg hsub, hfil, if_pos hfs] at h
        exact Option.noConfusion h
      · rcases hw : (dictGet dict "Width").bind asI64 with _ | wv
        · simp only [rewriteStream, if_neg hsub, hfil, if_neg hfs, hw] at h
          exact Option.noConfusion h
        · by_cases hwle : wv ≤ 0
          · simp only [rewriteStream, if_neg hsub, hfil, if_neg hfs, hw,
              if_pos hwle] at h
            exact Option.noConfusion h
          · rcases hh : (dictGet dict "Height").bind asI64 with _ | hv
            · simp only [rewriteStream, if_neg hsub, hfil, if_neg hfs, hw,
                if_neg hwle, hh] at h
              exact Option.noConfusion h
            · by_cases hhle : hv ≤ 0
              · simp only [rewriteStream, if_neg hsub, hfil, if_neg hfs, hw,
                  if_neg hwle, hh, if_pos hhle] at h
                exact Option.noConfusion h
              · by_cases hbits : ((dictGet dict "BitsPerComponent").bind asI64).getD 8 ≠ 8
                · simp only [rewriteStream, if_neg hsub, hfil, if_neg hfs, hw,
                    if_neg hwle, hh, if_neg hhle, if_pos hbits] at h
                  exact Option.noConfusion h
                · rcases hcs : dictGet dict "ColorSpace" with _ | cso
                  · simp only [rewriteStream, if_neg hsub, hfil, if_neg hfs, hw,
                      if_neg hwle, hh, if_neg hhle, if_neg hbits, hcs] at h
                    exact Option.noConfusion h
                  · cases cso with
                    | name cs =>
                      by_cases hcsn : cs ≠ "DeviceRGB" ∧ cs ≠ "DeviceGray"
                      · simp only [rewriteStream, if_neg hsub, hfil, if_neg hfs, hw,
                          if_neg hwle, hh, if_neg hhle, if_neg hbits, hcs,
                          if_pos hcsn] at h
                        exact Option.noConfusion h
                      · rcases hinf : E.inflate dict content with _ | decoded
                        · simp only [rewriteStream, if_neg hsub, hfil, if_neg hfs, hw,
                            if_neg hwle, hh, if_neg hhle, if_neg hbits, hcs,
                            if_neg hcsn, hinf] at h
                          exact Option.noConfusion h
                        · by_cases hpx : wv.toNat * hv.toNat = 0
                          · simp only [rewriteStream, if_neg hsub, hfil, if_neg hfs,
                              hw, if_neg hwle, hh, if_neg hhle, if_neg hbits, hcs,
                              if_neg hcsn, hinf, if_pos hpx] at h
                            exact Option.noConfusion h
                          · rcases hrgb : (if cs = "DeviceRGB" then
                                (if decoded.length = wv.toNat * hv.toNat * 3 then
                                  some decoded else none)
                              else
                                (if decoded.length = wv.toNat * hv.toNat then
                                  some (decoded.flatMap fun v => [v, v, v])
                                else none)) with _ | rgb
                            · simp only [rewriteStream, if_neg hsub, hfil, if_neg hfs,
                                hw, if_neg hwle, hh, if_neg hhle, if_neg hbits, hcs,
                                if_neg hcsn, hinf, if_neg hpx, hrgb] at h
                              exact Option.noConfusion h
                            · by_cases hjb : (E.jpegEncode rgb
                                  { width := wv.toNat, height := hv.toNat,
                                    quality := q, preset := p,
                                    color_type := ColorType.rgb }).getD [] = []
                              · simp only [rewriteStream, if_neg hsub, hfil,
                                  if_neg hfs, hw, if_neg hwle, hh, if_neg hhle,
                                  if_neg hbits, hcs, if_neg hcsn, hinf, if_neg hpx,
                                  hrgb, if_pos hjb] at h
                                exact Option.noConfusion h
                              · simp only [rewriteStream, if_neg hsub, hfil,
                                  if_neg hfs, hw, if_neg hwle, hh, if_neg hhle,
                                  if_neg hbits, hcs, if_neg hcsn, hinf, if_neg hpx,
                                  hrgb, if_neg hjb, Option.some_inj] at h
                                obtain ⟨h1, h2⟩ := Prod.mk.injEq _ _ _ _ ▸ h
                                subst h2
                                subst h1
                                exact ⟨rfl, hjb⟩
                    | int i =>
                      simp only [rewriteStream, if_neg hsub, hfil, if_neg hfs, hw,
                        if_neg hwle, hh, if_neg hhle, if_neg hbits, hcs] at h
                      exact Option.noConfusion h
                    | arr xs =>
                      simp only [rewriteStream, if_neg hsub, hfil, if_neg hfs, hw,
                        if_neg hwle, hh, if_neg hhle, if_neg hbits, hcs] at h
                      exact Option.noConfusion h
                    | stream sd sc =>
                      simp only [rewriteStream, if_neg hsub, hfil, if_neg hfs, hw,
                        if_neg hwle, hh, if_neg hhle, if_neg hbits, hcs] at h
                      exact Option.noConfusion h
                    | other =>
                      simp only [rewriteStream, if_neg hsub, hfil, if_neg hfs, hw,
                        if_neg hwle, hh, if_neg hhle, if_neg hbits, hcs] at h
                      exact Option.noConfusion h

/-- A stream whose `BitsPerComponent` resolves to anything other than
`8` is skipped by the rewriter. -/
theorem rewriteStream_bits_skip (E : Extern) (q p : Nat)
    (dict : List (String × PdfObj)) (content : List Nat)
    (hb : ((dictGet dict "BitsPerComponent").bind asI64).getD 8 ≠ 8) :
    rewriteStream E q p dict content = none := by
  by_cases hsub : (dictGet dict "Subtype").bind asName ≠ some "Image"
  · rw [rewriteStream, if_pos hsub]
  · rcases hfil : streamFilters dict with _ | fs
    · simp only [rewriteStream, if_neg hsub, hfil]
    · by_cases hfs : fs ≠ ["FlateDecode"]
      · simp only [rewriteStream, if_neg hsub, hfil, if_pos hfs]
      · rcases hw : (dictGet dict "Width").bind asI64 with _ | wv
        · simp only [rewriteStream, if_neg hsub, hfil, if_neg hfs, hw]
        · by_cases hwle : wv ≤ 0
          · simp only [rewriteStream, if_neg hsub, hfil, if_neg hfs, hw, if_pos hwle]
          · rcases hh : (dictGet dict "Height").bind asI64 with _ | hv
            · simp only [rewriteStream, if_neg hsub, hfil, if_neg hfs, hw,
                if_neg hwle, hh]
            · by_cases hhle : hv ≤ 0
              · simp only [rewriteStream, if_neg hsub, hfil, if_neg hfs, hw,
                  if_neg hwle, hh, if_pos hhle]
              · simp only [rewriteStream, if_neg hsub, hfil, if_neg hfs, hw,
                  if_neg hwle, hh, if_neg hhle, if_pos hb]

/-- A stream whose `Filter` entry is the name `DCTDecode` is skipped by
the rewriter. -/
theorem rewriteStream_dct_none (E : Extern) (q p : Nat)
    (dict : List (String × PdfObj)) (content : List Nat)
    (hf : dictGet dict "Filter" = some (PdfObj.name "DCTDecode")) :
    rewriteStream E q p dict content = none := by
  by_cases hsub : (dictGet dict "Subtype").bind asName ≠ some "Image"
  · simp only [rewriteStream, if_pos hsub]
  · have hsf : streamFilters dict = some ["DCTDecode"] := by
      simp [streamFilters, hf]
    simp [rewriteStream, if_neg hsub, hsf]

theorem rewriteObjects_mem (E : Extern) (q p : Nat) :
    ∀ (objs : List (Nat × PdfObj)) (id : Nat) (dict : List (String × PdfObj))
      (content : List Nat) (d' : List (String × PdfObj)) (c' : List Nat),
      (id, PdfObj.stream dict content) ∈ objs →
      rewriteStream E q p dict content = some (d', c') →
      (id, PdfObj.stream d' c') ∈ (rewriteObjects E q p objs).1 ∧
      (rewriteObjects E q p objs).2 = true := by
  intro objs
  induction objs with
  | nil =>
    intro id dict content d' c' hmem
    exact absurd hmem (List.not_mem_nil _)
  | cons head rest ih =>
    intro id dict content d' c' hmem hrw
    rcases List.mem_cons.mp hmem with hhd | htl
    · subst hhd
      simp only [rewriteObjects, hrw]
      exact ⟨List.mem_cons_self _ _, trivial⟩
    · obtain ⟨ihmem, ihflag⟩ := ih id dict content d' c' htl hrw
      obtain ⟨hid, hobj⟩ := head
      cases hobj with
      | stream sd sc =>
        rcases hr : rewriteStream E q p sd sc with _ | pr
        · simp only [rewriteObjects, hr]
          exact ⟨List.mem_cons_of_mem _ ihmem, ihflag⟩
        · obtain ⟨prd, prc⟩ := pr
          simp only [rewriteObjects, hr]
          exact ⟨List.mem_cons_of_mem _ ihmem, trivial⟩
      | name s =>
        simp only [rewriteObjects]
        exact ⟨List.mem_cons_of_mem _ ihmem, ihflag⟩
      | int i =>
        simp only [rewriteObjects]
        exact ⟨List.mem_cons_of_mem _ ihmem, ihflag⟩
      | arr xs =>
        simp only [rewriteObjects]
        exact ⟨List.mem_cons_of_mem _ ihmem, ihflag⟩
      | other =>
        simp only [rewriteObjects]
        exact ⟨List.mem_cons_of_mem _ ihmem, ihflag⟩

theorem rewriteObjects_nochange (E : Extern) (q p : Nat) :
    ∀ objs : List (Nat × PdfObj),
      (∀ (id : Nat) (dict : List (String × PdfObj)) (content : List Nat),
        (id, PdfObj.stream dict content) ∈ objs →
        rewriteStream E q p dict content = none) →
      rewriteObjects E q p objs = (objs, false) := by
  intro objs
  induction objs with
  | nil => intro hskip; rfl
  | cons head rest ih =>
    intro hskip
    have ihres := ih fun id dict content hmem =>
      hskip id dict content (List.mem_cons_of_mem _ hmem)
    obtain ⟨hid, hobj⟩ := head
    cases hobj with
    | stream sd sc =>
      have hr := hskip hid sd sc (List.mem_cons_self _ _)
      simp [rewriteObjects, hr, ihres]
    | name s => simp [rewriteObjects, ihres]
    | int i => simp [rewriteObjects, ihres]
    | arr xs => simp [rewriteObjects, ihres]
    | other => simp [rewriteObjects, ihres]

/-- Re-running the rewriting pass over its own output changes
nothing: rewritten streams now carry `Filter = DCTDecode` and fail the
filter eligibility check, and previously skipped objects are skipped
again. -/
theorem rewriteObjects_idem (E : Extern) (q p : Nat) :
    ∀ objs : List (Nat × PdfObj),
      rewriteObjects E q p (rewriteObjects E q p objs).1 =
        ((rewriteObjects E q p objs).1, false) := by
  intro objs
  induction objs with
  | nil => rfl
  | cons head rest ih =>
    obtain ⟨hid, hobj⟩ := head
    cases hobj with
    | stream sd sc =>
      rcases hr : rewriteStream E q p sd sc with _ | pr
      · simp only [rewriteObjects, hr, ih]
      · obtain ⟨prd, prc⟩ := pr
        obtain ⟨hshape, -⟩ := rewriteStream_some_shape E q p sd sc prd prc hr
        have hdct : rewriteStream E q p prd prc = none := by
          apply rewriteStream_dct_none
          rw [hshape]
          exact rewrittenDict_filter _ _
        simp only [rewriteObjects, hr, hdct, ih]
    | name s => simp only [rewriteObjects, ih]
    | int i => simp only [rewriteObjects, ih]
    | arr xs => simp only [rewriteObjects, ih]
    | other => simp only [rewriteObjects, ih]

/-- Computation rule for `compress_pdf_images` when parsing
succeeds. -/
theorem compress_pdf_images_parse (E : Extern) (pdf : List Nat)
    (objs : List (Nat × PdfObj)) (quality preset : Nat) (hne : pdf ≠ [])
    (hp : E.pdfParse pdf = some objs) :
    compress_pdf_images E pdf quality preset =
      (if (rewriteObjects E (clamp_u8 quality 1 100) (clamp_u8 preset 0 2) objs).2 =
          false then pdf
       else
        match E.pdfSave
            (rewriteObjects E (clamp_u8 quality 1 100) (clamp_u8 preset 0 2) objs).1
          with
          | some out => out
          | none => pdf) := by
  unfold compress_pdf_images
  rw [if_neg hne, hp]

/-! ## C3: the PDF image rewrite -/

/-- C3: any stream object that is an `Image` with exactly one
`FlateDecode` filter, positive integer dimensions, 8 bits per component,
`DeviceRGB`/`DeviceGray` color space and exactly-sized decompressed
content, whose JPEG encoding is nonempty, is rewritten by
`compress_pdf_images`: its content becomes the JPEG bytes, `Filter`
becomes `DCTDecode`, `ColorSpace` becomes `DeviceRGB`,
`BitsPerComponent` becomes `8`, `DecodeParms` is removed, and the
function returns the re-serialized graph (or the input on serialization
failure).  And a PDF all of whose streams carry `BitsPerComponent = 1`
is returned byte-identical. -/
theorem c3_pdf_rewrite (E : Extern) (pdf : List Nat) (quality preset : Nat) :
    (∀ (objs : List (Nat × PdfObj)) (id : Nat) (dict : List (String × PdfObj))
        (content : List Nat) (wv hv : Int) (data rgb jb : List Nat),
      pdf ≠ [] →
      E.pdfParse pdf = some objs →
      (id, PdfObj.stream dict content) ∈ objs →
      (dictGet dict "Subtype").bind asName = some "Image" →
      streamFilters dict = some ["FlateDecode"] →
      (dictGet dict "Width").bind asI64 = some wv → 0 < wv →
      (dictGet dict "Height").bind asI64 = some hv → 0 < hv →
      ((dictGet dict "BitsPerComponent").bind asI64).getD 8 = 8 →
      E.inflate dict content = some data →
      ((dictGet dict "ColorSpace" = some (PdfObj.name "DeviceRGB") ∧
          data.length = wv.toNat * hv.toNat * 3 ∧ rgb = data) ∨
        (dictGet dict "ColorSpace" = some (PdfObj.name "DeviceGray") ∧
          data.length = wv.toNat * hv.toNat ∧
          rgb = data.flatMap fun v => [v, v, v])) →
      E.jpegEncode rgb
        { width := wv.toNat, height := hv.toNat,
          quality := clamp_u8 quality 1 100, preset := clamp_u8 preset 0 2,
          color_type := ColorType.rgb } = some jb →
      jb ≠ [] →
      (id, PdfObj.stream (rewrittenDict dict jb.length) jb) ∈
        (rewriteObjects E (clamp_u8 quality 1 100) (clamp_u8 preset 0 2) objs).1 ∧
      dictGet (rewrittenDict dict jb.length) "Filter" =
        some (PdfObj.name "DCTDecode") ∧
      dictGet (rewrittenDict dict jb.length) "ColorSpace" =
        some (PdfObj.name "DeviceRGB") ∧
      dictGet (rewrittenDict dict jb.length) "BitsPerComponent" =
        some (PdfObj.int 8) ∧
      dictGet (rewrittenDict dict jb.length) "DecodeParms" = none ∧
      compress_pdf_images E pdf quality preset =
        (match E.pdfSave
            (rewriteObjects E (clamp_u8 quality 1 100) (clamp_u8 preset 0 2) objs).1
          with
          | some out => out
          | none => pdf)) ∧
    (∀ objs : List (Nat × PdfObj),
      E.pdfParse pdf = some objs →
      (∀ (id : Nat) (dict : List (String × PdfObj)) (content : List Nat),
        (id, PdfObj.stream dict content) ∈ objs →
        dictGet dict "BitsPerComponent" = some (PdfObj.int 1)) →
      compress_pdf_images E pdf quality preset = pdf) := by
  constructor
  · intro objs id dict content wv hv data rgb jb hne hp hmem hsub hfil hw hw0 hh
      hh0 hbits hinf hcs henc hjb
    have hrw := rewriteStream_eligible E (clamp_u8 quality 1 100)
      (clamp_u8 preset 0 2) dict content wv hv data rgb jb hsub hfil hw hw0 hh hh0
      hbits hinf hcs henc hjb
    obtain ⟨hm, hflag⟩ := rewriteObjects_mem E (clamp_u8 quality 1 100)
      (clamp_u8 preset 0 2) objs id dict content _ _ hmem hrw
    refine ⟨hm, rewrittenDict_filter _ _, rewrittenDict_colorspace _ _,
      rewrittenDict_bits _ _, rewrittenDict_decodeparms _ _, ?_⟩
    rw [compress_pdf_images_parse E pdf objs quality preset hne hp,
      if_neg (by simp [hflag])]
  · intro objs hp hbits1
    have hnochange := rewriteObjects_nochange E (clamp_u8 quality 1 100)
      (clamp_u8 preset 0 2) objs (fun id dict content hmem => by
        apply rewriteStream_bits_skip
        rw [hbits1 id dict content hmem]
        simp [asI64, Option.bind])
    by_cases hne : pdf = []
    · subst hne
      simp [compress_pdf_images]
    · rw [compress_pdf_images_parse E pdf objs quality preset hne hp, hnochange]
      simp

theorem c3_witness :
    ((1, PdfObj.stream (rewrittenDict sampleDict 1) [9]) ∈
        (rewriteObjects samplePdfExt 80 1 sampleObjs).1 ∧
      dictGet (rewrittenDict sampleDict 1) "Filter" =
        some (PdfObj.name "DCTDecode") ∧
      dictGet (rewrittenDict sampleDict 1) "ColorSpace" =
        some (PdfObj.name "DeviceRGB") ∧
      dictGet (rewrittenDict sampleDict 1) "BitsPerComponent" =
        some (PdfObj.int 8) ∧
      dictGet (rewrittenDict sampleDict 1) "DecodeParms" = none ∧
      compress_pdf_images samplePdfExt [5] 80 1 =
        (match samplePdfExt.pdfSave (rewriteObjects samplePdfExt 80 1 sampleObjs).1
          with
          | some out => out
          | none => [5])) ∧
    compress_pdf_images parseEmptyExt [5] 80 1 = [5] :=
  ⟨(c3_pdf_rewrite samplePdfExt [5] 80 1).1 sampleObjs 1 sampleDict [5] 1 1
      [7, 8, 9] [7, 8, 9] [9] (by decide) rfl (List.mem_cons_self _ _) rfl rfl rfl
      (by decide) rfl (by decide) rfl rfl
      (Or.inl ⟨rfl, by decide, rfl⟩) rfl (by decide),
   (c3_pdf_rewrite parseEmptyExt [5] 80 1).2 [] rfl
      (fun id dict content hmem => absurd hmem (List.not_mem_nil _))⟩

/-! ## C4: degraded cases of compress_pdf_images -/

/-- C4: `compress_pdf_images` returns its input unchanged whenever the
PDF fails to parse, whenever no object was rewritten, and whenever
re-serialization fails after an object was rewritten. -/
theorem c4_pdf_degraded_cases (E : Extern) (pdf : List Nat) (quality preset : Nat) :
    (E.pdfParse pdf = none → compress_pdf_images E pdf quality preset = pdf) ∧
    (∀ objs : List (Nat × PdfObj),
      E.pdfParse pdf = some objs →
      (rewriteObjects E (clamp_u8 quality 1 100) (clamp_u8 preset 0 2) objs).2 =
        false →
      compress_pdf_images E pdf quality preset = pdf) ∧
    (∀ objs : List (Nat × PdfObj),
      E.pdfParse pdf = some objs →
      (rewriteObjects E (clamp_u8 quality 1 100) (clamp_u8 preset 0 2) objs).2 =
        true →
      E.pdfSave
        (rewriteObjects E (clamp_u8 quality 1 100) (clamp_u8 preset 0 2) objs).1 =
        none →
      compress_pdf_images E pdf quality preset = pdf) := by
  refine ⟨?_, ?_, ?_⟩
  · intro hp
    by_cases hne : pdf = []
    · subst hne
      simp [compress_pdf_images]
    · unfold compress_pdf_images
      rw [if_neg hne, hp]
  · intro objs hp hflag
    by_cases hne : pdf = []
    · subst hne
      simp [compress_pdf_images]
    · rw [compress_pdf_images_parse E pdf objs quality preset hne hp, if_pos hflag]
  · intro objs hp hflag hsave
    by_cases hne : pdf = []
    · subst hne
      simp [compress_pdf_images]
    · rw [compress_pdf_images_parse E pdf objs quality preset hne hp,
        if_neg (by simp [hflag]), hsave]

theorem c4_witness :
    compress_pdf_images trivExt [5] 80 1 = [5] ∧
    compress_pdf_images parseEmptyExt [6] 80 1 = [6] ∧
    compress_pdf_images samplePdfExtNoSave [7] 80 1 = [7] :=
  ⟨(c4_pdf_degraded_cases trivExt [5] 80 1).1 rfl,
   (c4_pdf_degraded_cases parseEmptyExt [6] 80 1).2.1 [] rfl rfl,
   (c4_pdf_degraded_cases samplePdfExtNoSave [7] 80 1).2.2 sampleObjs rfl
     (by decide) rfl⟩

/-! ## C5: idempotence of compress_pdf_images -/

/-- C5: `compress_pdf_images` is idempotent, assuming the external
serializer/parser pair round-trips (`pdfParse` after a successful
`pdfSave` returns the saved object graph): rewritten streams now carry
`Filter = DCTDecode` and fail the single-`FlateDecode` eligibility
check, and every other object is skipped again for its original
reason. -/
theorem c5_pdf_idempotent (E : Extern) (pdf : List Nat) (quality preset : Nat)
    (hRT : ∀ (d : List (Nat × PdfObj)) (b : List Nat),
      E.pdfSave d = some b → E.pdfParse b = some d) :
    compress_pdf_images E (compress_pdf_images E pdf quality preset) quality preset
      = compress_pdf_images E pdf quality preset := by
  by_cases hne : pdf = []
  · subst hne
    simp [compress_pdf_images]
  · rcases hp : E.pdfParse pdf with _ | objs
    · have h1 : compress_pdf_images E pdf quality preset = pdf := by
        unfold compress_pdf_images
        rw [if_neg hne, hp]
      rw [h1]
      exact h1
    · by_cases hflag : (rewriteObjects E (clamp_u8 quality 1 100)
          (clamp_u8 preset 0 2) objs).2 = false
      · have h1 : compress_pdf_images E pdf quality preset = pdf := by
          rw [compress_pdf_images_parse E pdf objs quality preset hne hp,
            if_pos hflag]
        rw [h1]
        exact h1
      · rcases hsave : E.pdfSave (rewriteObjects E (clamp_u8 quality 1 100)
            (clamp_u8 preset 0 2) objs).1 with _ | out
        · have h1 : compress_pdf_images E pdf quality preset = pdf := by
            rw [compress_pdf_images_parse E pdf objs quality preset hne hp,
              if_neg hflag, hsave]
          rw [h1]
          exact h1
        · have h1 : compress_pdf_images E pdf quality preset = out := by
            rw [compress_pdf_images_parse E pdf objs quality preset hne hp,
              if_neg hflag, hsave]
          rw [h1]
          by_cases hoe : out = []
          · subst hoe
            simp [compress_pdf_images]
          · have hp2 := hRT _ _ hsave
            have hidem := rewriteObjects_idem E (clamp_u8 quality 1 100)
              (clamp_u8 preset 0 2) objs
            rw [compress_pdf_images_parse E out _ quality preset hoe hp2, hidem]
            simp

theorem c5_witness :
    compress_pdf_images trivExt (compress_pdf_images trivExt [1] 80 1) 80 1 =
      compress_pdf_images trivExt [1] 80 1 :=
  c5_pdf_idempotent trivExt [1] 80 1
    (fun d b h => by simp [trivExt] at h)

/-! ## C10: original bytes returned when re-encoding does not help -/

/-- C10: with no target budget (`target_kb = 0`), no resize
(`scale_to_max_side` returns the dimensions unchanged) and the input
kind equal to the resolved output mode, `compress_file` returns the
original bytes exactly when the fresh encode is not strictly smaller,
and the fresh encode otherwise. -/
theorem c10_passthrough (E : Extern) (bytes : List Nat)
    (mime ext out_mode_sel : String)
    (quality preset max_side bg_r bg_g bg_b : Nat) (png_mode : String)
    (png_max_colors : Nat) (png_dither png_force_quant bg_transparent : Bool)
    (w h : Nat) (rgba : List Nat)
    (hne : bytes ≠ [])
    (hdec : E.decodeImage bytes = some (w, h, rgba))
    (hscale : scale_to_max_side w h max_side = (w, h))
    (hkind : resolve_out_mode (strToLower mime) (strToLower ext) out_mode_sel bytes
        bg_transparent = input_kind (strToLower mime) (strToLower ext)) :
    (input_kind (strToLower mime) (strToLower ext) = "png" →
      compress_file E bytes mime ext out_mode_sel quality preset max_side 0 bg_r
        bg_g bg_b png_mode png_max_colors png_dither png_force_quant bg_transparent
      = some
        (if bytes.length ≤
            (encode_png_with_quality E rgba w h (clamp_u8 quality 1 100)
              (clamp_u8 preset 0 2) (strToLower png_mode) png_max_colors png_dither
              png_force_quant).length
          then bytes
          else encode_png_with_quality E rgba w h (clamp_u8 quality 1 100)
            (clamp_u8 preset 0 2) (strToLower png_mode) png_max_colors png_dither
            png_force_quant, "png")) ∧
    (input_kind (strToLower mime) (strToLower ext) = "jpeg" →
      compress_file E bytes mime ext out_mode_sel quality preset max_side 0 bg_r
        bg_g bg_b png_mode png_max_colors png_dither png_force_quant bg_transparent
      = some
        (if bytes.length ≤
            (encode_jpeg_rgba E w h rgba (clamp_u8 quality 1 100)
              (clamp_u8 preset 0 2) bg_r bg_g bg_b).length
          then bytes
          else encode_jpeg_rgba E w h rgba (clamp_u8 quality 1 100)
            (clamp_u8 preset 0 2) bg_r bg_g bg_b, "jpeg")) := by
  constructor
  · intro hk
    have hmode : resolve_out_mode (strToLower mime) (strToLower ext) out_mode_sel
        bytes bg_transparent = "png" := by rw [hkind, hk]
    simp only [compress_file, if_neg hne, hmode, hdec, hscale, hk, Nat.zero_mul,
      Nat.zero_min, lt_self_iff_false, if_false, ne_eq, eq_self_iff_true,
      not_true_eq_false, or_self, true_and, if_true]
    rw [if_neg (by decide : ¬("png" : String) = "pdf")]
    split_ifs <;> rfl
  · intro hk
    have hmode : resolve_out_mode (strToLower mime) (strToLower ext) out_mode_sel
        bytes bg_transparent = "jpeg" := by rw [hkind, hk]
    simp only [compress_file, if_neg hne, hmode, hdec, hscale, hk, Nat.zero_mul,
      Nat.zero_min, lt_self_iff_false, if_false, ne_eq, eq_self_iff_true,
      not_true_eq_false, or_self, true_and, if_true]
    rw [if_neg (by decide : ¬("jpeg" : String) = "pdf"),
      if_neg (by decide : ¬("jpeg" : String) = "png")]
    split_ifs <;> rfl

theorem c10_witness :
    compress_file rasterExt [9] "image/png" "" "auto" 80 1 0 0 0 0 0 "lossless" 256
      false false false =
    some
      (if ([9] : List Nat).length ≤
          (encode_png_with_quality rasterExt [10, 20, 30, 255] 1 1
            (clamp_u8 80 1 100) (clamp_u8 1 0 2) (strToLower "lossless") 256 false
            false).length
        then [9]
        else encode_png_with_quality rasterExt [10, 20, 30, 255] 1 1
          (clamp_u8 80 1 100) (clamp_u8 1 0 2) (strToLower "lossless") 256 false
          false, "png") :=
  (c10_passthrough rasterExt [9] "image/png" "" "auto" 80 1 0 0 0 0 "lossless" 256
    false false false 1 1 [10, 20, 30, 255] (by decide) rfl (by decide)
    (by decide)).1 (by decide)
